import Mathlib

/-!
Verification development for the `asa` spatial-analysis notebooks.

The repository consists of instructional Jupyter notebooks (module04:
matplotlib, module06: geopandas, module10: spatial regression).  The
definitions below shallowly embed the data-flow of the notebook cells:
dataframes are association lists of (index label, row), geometry-bearing
frames track their coordinate reference system (CRS) tag, file system
effects are threaded explicitly, and the external library operations the
notebooks call (left spatial join, reprojection, loc/dropna indexing,
spatial-index queries, groupby shares) are given their documented
list-level semantics.
-/

namespace Asa

/-! ### Left spatial join (`gpd.sjoin(left, right, how='left', op='within')`)

Modelled from the spec: the geopandas `sjoin` implementation is external to
the repository; the spec describes the call `gpd.sjoin(rents,
contiguous_states, how='left', op='within')`.  A left join keeps every left
row: a left row with no matching right row is kept once (paired with no
right row, i.e. NaNs), and a left row matching several right rows is
duplicated once per match. -/
def sjoinLeft {α β : Type} (left : List α) (right : List β) (p : α → β → Bool) :
    List (α × Option β) :=
  left.flatMap fun l =>
    if (right.filter fun r => p l r).isEmpty then [(l, none)]
    else (right.filter fun r => p l r).map fun r => (l, some r)

lemma sjoinLeft_row_contrib {α β : Type} (l : α) (ms : List β) :
    1 ≤ (if ms.isEmpty then [(l, none)] else ms.map fun r => (l, some r)).length := by
  cases ms with
  | nil => simp
  | cons b bs => simp

/-! ### The module06 notebook pipeline

We embed the CRS- and file-system-relevant cells of
`module06.ipynb`, in execution order.  A `GFrame` records the CRS tag of a
GeoDataFrame/GeoSeries (`none` when undefined); slicing a frame (row
selection, taking the geometry column) keeps its CRS, so slices are the
identity at this level of abstraction. -/

structure GFrame where
  crs : Option String
deriving Repr, DecidableEq

/-- Raw content of a geospatial file (shapefile / GeoJSON), which carries a
CRS; the notebook notes that its shapefile "already has an original CRS". -/
structure GeoFile where
  fileCrs : String
deriving Repr, DecidableEq

/-- `gpd.GeoDataFrame.from_file` / `gpd.read_file`: the loaded frame carries
the CRS recorded in the file. -/
def from_file (f : GeoFile) : GFrame := { crs := some f.fileCrs }

/-- A frame built from a plain CSV (`pd.read_csv` then `gpd.GeoDataFrame`)
has no CRS until one is assigned. -/
def fromCsv : GFrame := { crs := none }

/-- The failures the module06 pipeline can hit: a file that fails to load,
a reprojection whose source CRS is undefined, or one whose target CRS is
undefined. -/
inductive NbError where
  | load (path : String) (msg : String)
  | missingSourceCrs
  | missingTargetCrs
deriving Repr, DecidableEq

/-- `gdf.to_crs(target)`: reprojection requires a defined source CRS and a
defined target CRS; with both, the result carries the target CRS. -/
def to_crs (f : GFrame) (target : Option String) : Except NbError GFrame :=
  match f.crs with
  | none => .error NbError.missingSourceCrs
  | some _ =>
    match target with
    | none => .error NbError.missingTargetCrs
    | some t => .ok { crs := some t }

/-- Lift a file-load result into the pipeline, tagging the failure with the
path, as the library's error message does. -/
def loadStep {α : Type} (path : String) (r : Except String α) : Except NbError α :=
  match r with
  | .error e => .error (NbError.load path e)
  | .ok a => .ok a

/-- The files module06 reads, each either loading successfully or failing
with a library error message. -/
structure Env06 where
  usaCsv : Except String Unit
  statesShp : Except String GeoFile
  statesGeojson : Except String GeoFile
  listingsCsv : Except String Unit
deriving Repr

def original_crs : String := "epsg:4326"

def utm_11 : String := "+proj=utm +zone=11 +ellps=GRS80 +datum=NAD83 +units=m +no_defs"

def albers_usa : String := "+proj=aea +datum=NAD83 +ellps=GRS80 +lat_1=33 +lat_2=45 +lon_0=-97 +lat_0=39 +units=m"

/-- The module06 notebook run, cell by cell in execution order, returning
the list of paths written to disk.  Comments quote the cells embedded. -/
def module06Run (env : Env06) : Except NbError (List String) := do
  -- df = pd.read_csv('data/usa-latlong.csv'); usa_points = gpd.GeoDataFrame(df)
  let _ ← loadStep "data/usa-latlong.csv" env.usaCsv
  let usa_points := fromCsv
  -- states = gpd.GeoDataFrame.from_file('data/states_21basic/states.shp')
  let statesFile ← loadStep "data/states_21basic/states.shp" env.statesShp
  let states := from_file statesFile
  -- states2 = gpd.read_file('data/states.geojson'); states2.to_file('data/states2')
  let _ ← loadStep "data/states.geojson" env.statesGeojson
  let writes1 := ["data/states2"]
  -- california = states[states['STATE_NAME']=='California']['geometry']  (slice keeps CRS)
  let california := states
  -- cal_points = usa_points[usa_points.within(california_polygon)]  (slice keeps CRS)
  let cal_points := usa_points
  -- cal_points.crs = original_crs
  let cal_points := { cal_points with crs := some original_crs }
  -- california = california.to_crs(utm_11)
  let _california ← to_crs california (some utm_11)
  -- cal_points = cal_points.to_crs(utm_11)
  let _cal_points ← to_crs cal_points (some utm_11)
  -- usa_points.crs = original_crs
  let usa_points := { usa_points with crs := some original_crs }
  -- usa_points.to_crs(albers_usa).head()  (not assigned back)
  let _ ← to_crs usa_points (some albers_usa)
  -- contiguous_states = states[mask]  (slice keeps CRS)
  let contiguous_states := states
  -- contiguous_states.to_crs(albers_usa).plot(ax=ax2)
  let _ ← to_crs contiguous_states (some albers_usa)
  -- contiguous_states_proj = contiguous_states.to_crs(albers_usa)
  let _proj ← to_crs contiguous_states (some albers_usa)
  -- fig.savefig('data/map.png', dpi=600)
  let writes2 := writes1 ++ ["data/map.png"]
  -- rents = pd.read_csv('data/listings.csv'); rents = gpd.GeoDataFrame(rents)
  let _ ← loadStep "data/listings.csv" env.listingsCsv
  -- rents.crs = original_crs
  let rents := { fromCsv with crs := some original_crs }
  -- rents = rents.to_crs(contiguous_states.crs)
  let _rents ← to_crs rents contiguous_states.crs
  -- rents_states = gpd.sjoin(...), groupbys, sindex queries: no CRS or file effect
  pure writes2

/-- Whether an `Except` is a success. -/
def isOkB {ε α : Type} : Except ε α → Bool
  | .ok _ => true
  | .error _ => false

/-- A concrete environment in which every file loads. -/
def envAllOk : Env06 :=
  { usaCsv := .ok ()
    statesShp := .ok { fileCrs := "epsg:4326" }
    statesGeojson := .ok { fileCrs := "epsg:4326" }
    listingsCsv := .ok () }

/-- C1 counterexample data: one left point that lies within both of two
overlapping right polygons. -/
def oneLeftRow : List Nat := [0]

def twoRightRows : List Nat := [0, 1]

/-- C1: the claim as stated is false: with one left row within two
(overlapping) right geometries, the left spatial join has 2 rows,
exceeding the left table's 1 row. -/
theorem sjoin_left_rowcount_claim_false :
    ¬ ((sjoinLeft oneLeftRow twoRightRows fun _ _ => true).length ≤ oneLeftRow.length) := by
  decide

/-- C1 (amended): a left spatial join keeps every left row at least once,
so its row count is greater than or equal to the left table's row count. -/
theorem sjoin_left_rowcount_ge {α β : Type} (left : List α) (right : List β)
    (p : α → β → Bool) : left.length ≤ (sjoinLeft left right p).length := by
  induction left with
  | nil => simp [sjoinLeft]
  | cons l ls ih =>
    have h1 := sjoinLeft_row_contrib (β := β) l (right.filter fun r => p l r)
    simp only [sjoinLeft, List.flatMap_cons, List.length_append, List.length_cons] at ih ⊢
    omega

/-- C2: in every notebook run, each `to_crs` call happens on a frame whose
source CRS is defined at that point (loaded from file or assigned
beforehand): the undefined-source-CRS failure branch is unreachable,
whatever the file loads return. -/
theorem module06_no_missing_source_crs (env : Env06) :
    module06Run env ≠ Except.error NbError.missingSourceCrs := by
  obtain ⟨u, s, g, l⟩ := env
  cases u <;> cases s <;> cases g <;> cases l <;>
    simp [module06Run, loadStep, from_file, fromCsv, to_crs, bind, Except.bind, pure, Except.pure]

/-- C4: the pipeline threads every fallible operation with no catch,
translation or retry: the run succeeds exactly when every file load
succeeds, and any load failure propagates and halts the run. -/
theorem module06_failures_propagate (env : Env06) :
    isOkB (module06Run env) =
      (isOkB env.usaCsv && isOkB env.statesShp && isOkB env.statesGeojson &&
        isOkB env.listingsCsv) := by
  obtain ⟨u, s, g, l⟩ := env
  cases u <;> cases s <;> cases g <;> cases l <;>
    simp [module06Run, loadStep, from_file, fromCsv, to_crs, isOkB, bind, Except.bind,
      pure, Except.pure]

/-- C5: whenever a full module06 run completes, the only paths written to
disk are the rewritten GeoJSON/shapefile output `data/states2` and the
saved PNG `data/map.png`, in that order; the other notebooks write no
files. -/
theorem module06_writes_only_two_files (env : Env06) (w : List String)
    (h : module06Run env = Except.ok w) : w = ["data/states2", "data/map.png"] := by
  obtain ⟨u, s, g, l⟩ := env
  cases u <;> cases s <;> cases g <;> cases l <;>
    simp_all [module06Run, loadStep, from_file, fromCsv, to_crs, bind, Except.bind,
      pure, Except.pure]

/-- C5 witness: in the all-loads-succeed environment the run writes exactly
those two files. -/
theorem module06_writes_only_two_files_witness :
    module06Run envAllOk = Except.ok ["data/states2", "data/map.png"] ∧
      ["data/states2", "data/map.png"] = ["data/states2", "data/map.png"] :=
  ⟨rfl, module06_writes_only_two_files envAllOk ["data/states2", "data/map.png"] rfl⟩

/-! ### Dataframe indexing (module10 design-matrix construction)

Every model fit in module10 (scipy OLS, statsmodels OLS, fixed effects,
spatial regimes, spatial diagnostics, ML lag, ML error, GM combo) builds its
predictor frame by row selection — `X = tracts[predictors].dropna()`, or
`tracts.loc[mask, predictors].dropna()` for the regimes model — and then its
response as `y = tracts.loc[X.index][response]`.  A dataframe is embedded as
a list of (index label, row) pairs in frame order. -/

def dfIndex {ι ρ : Type} (df : List (ι × ρ)) : List ι := df.map Prod.fst

/-- `df[cols].dropna()` / boolean-mask row selection: keep the rows
satisfying `keep`, preserving order and index labels. -/
def dfFilter {ι ρ : Type} (keep : ι × ρ → Bool) (df : List (ι × ρ)) : List (ι × ρ) :=
  df.filter keep

/-- `df.loc[labels]`: for each label in order, all rows of `df` carrying
that label (exactly one row per label when the index has no duplicates). -/
def dfLoc {ι ρ : Type} [DecidableEq ι] (df : List (ι × ρ)) (labels : List ι) :
    List (ι × ρ) :=
  labels.flatMap fun i => df.filter fun r => r.1 = i

/-- module10: `X = tracts[predictors].dropna()` (column selection keeps the
index; the regimes variant adds a county mask, also a row filter). -/
def designX {ι ρ : Type} (keep : ι × ρ → Bool) (tracts : List (ι × ρ)) : List (ι × ρ) :=
  dfFilter keep tracts

/-- module10: `y = tracts.loc[X.index][response]` (column selection does not
touch the index, so the embedding keeps the full rows). -/
def responseY {ι ρ : Type} [DecidableEq ι] (keep : ι × ρ → Bool)
    (tracts : List (ι × ρ)) : List (ι × ρ) :=
  dfLoc tracts (dfIndex (designX keep tracts))

lemma filter_label_map_fst {ι ρ : Type} [DecidableEq ι] (df : List (ι × ρ))
    (h : (dfIndex df).Nodup) {i : ι} (hi : i ∈ dfIndex df) :
    (df.filter fun r => r.1 = i).map Prod.fst = [i] := by
  induction df with
  | nil => simp [dfIndex] at hi
  | cons a l ih =>
    simp only [dfIndex, List.map_cons, List.nodup_cons, List.mem_cons] at h hi
    by_cases hai : a.1 = i
    · have hnil : (l.filter fun r => decide (r.1 = i)) = [] := by
        apply List.filter_eq_nil_iff.mpr
        intro r hr
        simp only [decide_eq_true_eq]
        intro hri
        exact h.1 (hai ▸ hri ▸ List.mem_map_of_mem Prod.fst hr)
      simp [List.filter_cons, hai, hnil]
    · have hi' : i ∈ l.map Prod.fst := by
        rcases hi with h1 | h2
        · exact absurd h1.symm hai
        · exact h2
      simpa [List.filter_cons, hai] using ih h.2 hi'

lemma dfLoc_index {ι ρ : Type} [DecidableEq ι] (df : List (ι × ρ))
    (h : (dfIndex df).Nodup) (labels : List ι)
    (hsub : ∀ i ∈ labels, i ∈ dfIndex df) :
    dfIndex (dfLoc df labels) = labels := by
  induction labels with
  | nil => simp [dfLoc, dfIndex]
  | cons i is ih =>
    have hhead : (df.filter fun r => r.1 = i).map Prod.fst = [i] :=
      filter_label_map_fst df h (hsub i (List.mem_cons_self i is))
    have htail : dfIndex (dfLoc df is) = is :=
      ih fun j hj => hsub j (List.mem_cons_of_mem i hj)
    simp only [dfLoc, dfIndex, List.flatMap_cons, List.map_append] at htail ⊢
    rw [hhead, htail]
    rfl

/-- C3: when the frame's index has no duplicate labels (as for the loaded
tract data), the response built as `tracts.loc[X.index][response]` carries
exactly the same index, in the same order, as the predictor frame `X`: the
rows of every fitted model's design matrix and response are aligned. -/
theorem design_response_aligned {ι ρ : Type} [DecidableEq ι]
    (tracts : List (ι × ρ)) (keep : ι × ρ → Bool)
    (h : (dfIndex tracts).Nodup) :
    dfIndex (responseY keep tracts) = dfIndex (designX keep tracts) := by
  apply dfLoc_index tracts h
  intro i hi
  simp only [dfIndex, designX, dfFilter, List.mem_map] at hi ⊢
  obtain ⟨r, hr, hfst⟩ := hi
  exact ⟨r, (List.mem_filter.mp hr).1, hfst⟩

/-- C3 witness: a concrete three-row frame with a null in the middle row. -/
theorem design_response_aligned_witness :
    (dfIndex ([(0, true), (1, false), (2, true)] : List (Nat × Bool))).Nodup ∧
      dfIndex (responseY Prod.snd [(0, true), (1, false), (2, true)]) =
        dfIndex (designX Prod.snd [(0, true), (1, false), (2, true)]) :=
  ⟨by decide, design_response_aligned [(0, true), (1, false), (2, true)] Prod.snd (by decide)⟩

/-! ### Call sites (cross-notebook call structure)

The named call sites of the notebooks, each callee classified by origin:
a third-party library entry point, a function defined earlier in the same
notebook, or a function defined in a different file of the repository.  The
repository defines exactly two functions: `get_distance` (module06, invoked
row-wise through `usa_points.apply` in the same notebook) and
`scatter_plot` (module04, called twice in the same notebook). -/

inductive CalleeOrigin where
  | externalLib
  | sameFileDef
  | otherFileDef
deriving Repr, DecidableEq

structure CallSite where
  file : String
  callee : String
  origin : CalleeOrigin
deriving Repr, DecidableEq

def callSites : List CallSite := [
  -- module04 (matplotlib notebook)
  ⟨"module04", "pd.read_csv", CalleeOrigin.externalLib⟩,
  ⟨"module04", "plt.subplots", CalleeOrigin.externalLib⟩,
  ⟨"module04", "ax.scatter", CalleeOrigin.externalLib⟩,
  ⟨"module04", "scatter_plot", CalleeOrigin.sameFileDef⟩,
  ⟨"module04", "scatter_plot", CalleeOrigin.sameFileDef⟩,
  -- module06 (geopandas notebook)
  ⟨"module06", "pd.read_csv", CalleeOrigin.externalLib⟩,
  ⟨"module06", "gpd.GeoDataFrame", CalleeOrigin.externalLib⟩,
  ⟨"module06", "great_circle", CalleeOrigin.externalLib⟩,
  ⟨"module06", "get_distance", CalleeOrigin.sameFileDef⟩,
  ⟨"module06", "GeoDataFrame.from_file", CalleeOrigin.externalLib⟩,
  ⟨"module06", "gpd.read_file", CalleeOrigin.externalLib⟩,
  ⟨"module06", "states2.to_file", CalleeOrigin.externalLib⟩,
  ⟨"module06", "intersects", CalleeOrigin.externalLib⟩,
  ⟨"module06", "within", CalleeOrigin.externalLib⟩,
  ⟨"module06", "dissolve", CalleeOrigin.externalLib⟩,
  ⟨"module06", "buffer", CalleeOrigin.externalLib⟩,
  ⟨"module06", "to_crs", CalleeOrigin.externalLib⟩,
  ⟨"module06", "gpd.sjoin", CalleeOrigin.externalLib⟩,
  ⟨"module06", "sindex.intersection", CalleeOrigin.externalLib⟩,
  ⟨"module06", "fig.savefig", CalleeOrigin.externalLib⟩,
  -- module10 (spatial regression notebook)
  ⟨"module10", "gpd.read_file", CalleeOrigin.externalLib⟩,
  ⟨"module10", "dropna", CalleeOrigin.externalLib⟩,
  ⟨"module10", "stats.linregress", CalleeOrigin.externalLib⟩,
  ⟨"module10", "add_constant", CalleeOrigin.externalLib⟩,
  ⟨"module10", "sm.OLS", CalleeOrigin.externalLib⟩,
  ⟨"module10", "ps.model.spreg.OLS_Regimes", CalleeOrigin.externalLib⟩,
  ⟨"module10", "ps.lib.weights.Queen.from_dataframe", CalleeOrigin.externalLib⟩,
  ⟨"module10", "ps.model.spreg.OLS", CalleeOrigin.externalLib⟩,
  ⟨"module10", "ps.explore.esda.Moran", CalleeOrigin.externalLib⟩,
  ⟨"module10", "ps.model.spreg.ML_Lag", CalleeOrigin.externalLib⟩,
  ⟨"module10", "ps.model.spreg.ML_Error", CalleeOrigin.externalLib⟩,
  ⟨"module10", "ps.model.spreg.GM_Combo_Het", CalleeOrigin.externalLib⟩]

/-- C6 counterexample: the `scatter_plot(df, ...)` cell of module04 invokes
a function the repository itself defines, so not every call targets a
third-party library entry point. -/
theorem repo_defined_call_exists :
    CallSite.mk "module04" "scatter_plot" CalleeOrigin.sameFileDef ∈ callSites ∧
      (CallSite.mk "module04" "scatter_plot" CalleeOrigin.sameFileDef).origin ≠
        CalleeOrigin.externalLib := by
  decide

/-- C6 (amended): no call site invokes a repository-defined function from a
different file, and the only repository-defined callees are the two
same-notebook helpers `scatter_plot` (twice) and `get_distance`; every
other recorded call, including all the enumerated spatial and statistical
operations, targets a third-party library. -/
theorem calls_stay_within_file :
    (callSites.all fun s => s.origin ≠ CalleeOrigin.otherFileDef) = true ∧
      ((callSites.filter fun s => s.origin ≠ CalleeOrigin.externalLib).map
          fun s => s.callee) = ["scatter_plot", "scatter_plot", "get_distance"] := by
  decide

/-! ### Spatial-index prefilter (module06, section 5)

Modelled from the spec: the rents rows are points; the query geometry (a
state polygon) is abstracted as the finite set of grid points it covers, so
`intersects` for a point row is membership and `.bounds` is the geometry's
axis-aligned envelope, within which every point of the geometry lies.  The
r-tree `sindex.intersection(bbox)` returns the labels of the rows whose own
bounding box — for a point row, the point itself — meets the given box. -/

structure Pt where
  x : Int
  y : Int
deriving Repr, DecidableEq

structure BBox where
  minx : Int
  miny : Int
  maxx : Int
  maxy : Int
deriving Repr, DecidableEq

def inBox (p : Pt) (b : BBox) : Prop :=
  b.minx ≤ p.x ∧ p.x ≤ b.maxx ∧ b.miny ≤ p.y ∧ p.y ≤ b.maxy

instance (p : Pt) (b : BBox) : Decidable (inBox p b) := by
  unfold inBox
  infer_instance

/-- `row.geometry.intersects(geometry)` for a point row. -/
def gIntersects (p : Pt) (g : List Pt) : Bool := decide (p ∈ g)

def expand (b : BBox) (q : Pt) : BBox :=
  ⟨min b.minx q.x, min b.miny q.y, max b.maxx q.x, max b.maxy q.y⟩

/-- `geometry.bounds` (shapely): the envelope of the geometry. -/
def bounds : List Pt → BBox
  | [] => ⟨0, 0, 0, 0⟩
  | p :: ps => ps.foldl expand ⟨p.x, p.y, p.x, p.y⟩

/-- `matches = rents.intersects(geometry)` used as a row mask: the
brute-force selection. -/
def bruteMatches (rents : List (Nat × Pt)) (g : List Pt) : List (Nat × Pt) :=
  rents.filter fun r => gIntersects r.2 g

/-- `possible_matches_index = list(sindex.intersection(geometry.bounds))`. -/
def sindexIntersection (rents : List (Nat × Pt)) (b : BBox) : List Nat :=
  (rents.filter fun r => inBox r.2 b).map Prod.fst

/-- `rents.iloc[idxs]` for a frame carrying the default 0..n-1 integer
index: the row labelled by each position, in the given order. -/
def iloc (rents : List (Nat × Pt)) (idxs : List Nat) : List (Nat × Pt) :=
  idxs.filterMap fun i => rents.find? fun r => r.1 = i

/-- `possible_matches = rents.iloc[possible_matches_index]`. -/
def possibleMatches (rents : List (Nat × Pt)) (g : List Pt) : List (Nat × Pt) :=
  iloc rents (sindexIntersection rents (bounds g))

/-- `precise_matches = possible_matches[possible_matches.intersects(geometry)]`. -/
def preciseMatches (rents : List (Nat × Pt)) (g : List Pt) : List (Nat × Pt) :=
  (possibleMatches rents g).filter fun r => gIntersects r.2 g

lemma inBox_expand_left {p : Pt} {b : BBox} (h : inBox p b) (q : Pt) :
    inBox p (expand b q) := by
  obtain ⟨h1, h2, h3, h4⟩ := h
  exact ⟨le_trans (min_le_left _ _) h1, le_trans h2 (le_max_left _ _),
    le_trans (min_le_left _ _) h3, le_trans h4 (le_max_left _ _)⟩

lemma inBox_expand_self (b : BBox) (q : Pt) : inBox q (expand b q) :=
  ⟨min_le_right _ _, le_max_right _ _, min_le_right _ _, le_max_right _ _⟩

lemma inBox_foldl (ps : List Pt) :
    ∀ (b : BBox) (p : Pt), inBox p b ∨ p ∈ ps → inBox p (ps.foldl expand b) := by
  induction ps with
  | nil =>
    intro b p h
    rcases h with hb | hm
    · exact hb
    · cases hm
  | cons q t ih =>
    intro b p h
    simp only [List.foldl_cons]
    rcases h with hb | hm
    · exact ih _ p (Or.inl (inBox_expand_left hb q))
    · rcases List.mem_cons.mp hm with rfl | ht
      · exact ih _ p (Or.inl (inBox_expand_self b p))
      · exact ih _ p (Or.inr ht)

lemma mem_bounds {p : Pt} {g : List Pt} (h : p ∈ g) : inBox p (bounds g) := by
  cases g with
  | nil => cases h
  | cons q t =>
    rcases List.mem_cons.mp h with rfl | ht
    · exact inBox_foldl t _ p (Or.inl ⟨le_refl _, le_refl _, le_refl _, le_refl _⟩)
    · exact inBox_foldl t _ p (Or.inr ht)

lemma find?_label_of_nodup {l : List (Nat × Pt)} (h : (l.map Prod.fst).Nodup)
    {i : Nat} {x : Pt} (hm : (i, x) ∈ l) :
    (l.find? fun r => r.1 = i) = some (i, x) := by
  induction l with
  | nil => cases hm
  | cons a t ih =>
    simp only [List.map_cons, List.nodup_cons] at h
    rcases List.mem_cons.mp hm with rfl | hmt
    · rw [List.find?_cons_of_pos]
      simp
    · by_cases hai : a.1 = i
      · exact absurd (hai ▸ List.mem_map_of_mem Prod.fst hmt) h.1
      · rw [List.find?_cons_of_neg]
        · exact ih h.2 hmt
        · simp [hai]

lemma iloc_of_sub {l : List (Nat × Pt)} (h : (l.map Prod.fst).Nodup) :
    ∀ sub : List (Nat × Pt), (∀ r ∈ sub, r ∈ l) →
      iloc l (sub.map Prod.fst) = sub := by
  intro sub
  induction sub with
  | nil => intro _; rfl
  | cons a t ih =>
    intro hsub
    obtain ⟨i, x⟩ := a
    have hfind : (l.find? fun r => r.1 = i) = some (i, x) :=
      find?_label_of_nodup h (hsub (i, x) (List.mem_cons_self _ _))
    simp only [iloc, List.map_cons, List.filterMap_cons, hfind]
    have := ih fun r hr => hsub r (List.mem_cons_of_mem _ hr)
    simpa [iloc] using this

lemma possibleMatches_eq_boxFilter (rents : List (Nat × Pt)) (g : List Pt)
    (h : (rents.map Prod.fst).Nodup) :
    possibleMatches rents g = rents.filter fun r => inBox r.2 (bounds g) := by
  unfold possibleMatches sindexIntersection
  exact iloc_of_sub h _ fun r hr => (List.mem_filter.mp hr).1

/-- C8: for every query geometry, the two-stage spatial-index query —
bounding-box prefilter through `sindex.intersection(geometry.bounds)`,
`iloc` retrieval, then the exact `.intersects(geometry)` test — selects
exactly the rows the brute-force mask `rents.intersects(geometry)`
selects, in the same order. -/
theorem sindex_query_eq_brute (rents : List (Nat × Pt)) (g : List Pt)
    (h : (rents.map Prod.fst).Nodup) :
    preciseMatches rents g = bruteMatches rents g := by
  unfold preciseMatches bruteMatches
  rw [possibleMatches_eq_boxFilter rents g h, List.filter_filter]
  apply List.filter_congr
  intro r _
  by_cases hint : gIntersects r.2 g = true
  · have hbox : inBox r.2 (bounds g) := mem_bounds (of_decide_eq_true hint)
    simp [hint, hbox]
  · simp [Bool.eq_false_iff.mpr hint]

/-- C8 witness: two point rows, a query geometry covering one of them. -/
theorem sindex_query_eq_brute_witness :
    (([(0, Pt.mk 0 0), (1, Pt.mk 5 5)] : List (Nat × Pt)).map Prod.fst).Nodup ∧
      preciseMatches [(0, Pt.mk 0 0), (1, Pt.mk 5 5)] [Pt.mk 0 0, Pt.mk 1 1] =
        bruteMatches [(0, Pt.mk 0 0), (1, Pt.mk 5 5)] [Pt.mk 0 0, Pt.mk 1 1] :=
  ⟨by decide,
    sindex_query_eq_brute [(0, Pt.mk 0 0), (1, Pt.mk 5 5)] [Pt.mk 0 0, Pt.mk 1 1]
      (by decide)⟩

/-! ### Spatial fixed effects: county dummy variables (module10, 2a) -/

/-- Helper for `uniqueVals`: keep the first occurrence of each value not
already seen. -/
def uniqueAux {α : Type} [DecidableEq α] (seen : List α) : List α → List α
  | [] => []
  | a :: l => if a ∈ seen then uniqueAux seen l else a :: uniqueAux (a :: seen) l

/-- `Series.unique()` (pandas): the distinct values, in order of first
appearance. -/
def uniqueVals {α : Type} [DecidableEq α] (l : List α) : List α := uniqueAux [] l

lemma mem_uniqueAux {α : Type} [DecidableEq α] (a : α) :
    ∀ (l seen : List α), a ∈ uniqueAux seen l ↔ a ∈ l ∧ a ∉ seen := by
  intro l
  induction l with
  | nil => intro seen; simp [uniqueAux]
  | cons b t ih =>
    intro seen
    by_cases hb : b ∈ seen
    · rw [uniqueAux, if_pos hb, ih]
      constructor
      · exact fun ⟨h1, h2⟩ => ⟨List.mem_cons_of_mem b h1, h2⟩
      · rintro ⟨h1, h2⟩
        rcases List.mem_cons.mp h1 with rfl | h3
        · exact absurd hb h2
        · exact ⟨h3, h2⟩
    · rw [uniqueAux, if_neg hb]
      by_cases hab : a = b
      · subst hab
        simp [hb]
      · simp [List.mem_cons, hab, ih]

lemma mem_uniqueVals {α : Type} [DecidableEq α] (l : List α) (a : α) :
    a ∈ uniqueVals l ↔ a ∈ l := by
  rw [uniqueVals, mem_uniqueAux]
  simp

lemma nodup_uniqueAux {α : Type} [DecidableEq α] :
    ∀ (l seen : List α), (uniqueAux seen l).Nodup := by
  intro l
  induction l with
  | nil => intro seen; simp [uniqueAux]
  | cons b t ih =>
    intro seen
    by_cases hb : b ∈ seen
    · rw [uniqueAux, if_pos hb]
      exact ih seen
    · rw [uniqueAux, if_neg hb]
      refine List.nodup_cons.mpr ⟨fun hmem => ?_, ih (b :: seen)⟩
      exact ((mem_uniqueAux b t (b :: seen)).mp hmem).2 (List.mem_cons_self b seen)

lemma nodup_uniqueVals {α : Type} [DecidableEq α] (l : List α) :
    (uniqueVals l).Nodup := nodup_uniqueAux l []

/-- A tract row as the fixed-effects cells see it: whether every predictor
column is non-null, and the COUNTYFP value. -/
structure Tract where
  predOk : Bool
  county : String
deriving Repr, DecidableEq

/-- `tracts['COUNTYFP']`. -/
def countyCol (tracts : List Tract) : List String := tracts.map Tract.county

/-- `tracts['COUNTYFP'].unique()`: the loop creates one dummy column per
entry, and `county_dummies` lists the same names. -/
def counties (tracts : List Tract) : List String := uniqueVals (countyCol tracts)

/-- The 0/1 entry of column `dummy_county_c` on a row with COUNTYFP `r`:
`(tracts['COUNTYFP'] == county).astype(int)`. -/
def dummyVal (r c : String) : Int := if r = c then 1 else 0

/-- The row-wise sum of the full set of dummy columns. -/
def fullDummyRowSum (tracts : List Tract) (r : String) : Int :=
  ((counties tracts).map fun c => dummyVal r c).sum

/-- `county_dummies = county_dummies[1:]`: every dummy but the first. -/
def countyDummies (tracts : List Tract) : List String := (counties tracts).tail

/-- The row-wise sum of the dummy columns included in the design matrix. -/
def includedDummyRowSum (tracts : List Tract) (r : String) : Int :=
  ((countyDummies tracts).map fun c => dummyVal r c).sum

/-- `X = tracts[predictors + county_dummies].dropna()`: the dummy columns
are never null, so the rows dropped are those with a null predictor. -/
def designRows (tracts : List Tract) : List Tract := tracts.filter Tract.predOk

/-- The included-dummy row sums down the design matrix. -/
def includedSums (tracts : List Tract) : List Int :=
  (designRows tracts).map fun r => includedDummyRowSum tracts r.county

lemma sum_dummyVal_of_not_mem {r : String} {cs : List String} (h : r ∉ cs) :
    (cs.map fun c => dummyVal r c).sum = 0 := by
  induction cs with
  | nil => rfl
  | cons c t ih =>
    have hrc : r ≠ c := fun hrc => h (by rw [hrc]; exact List.mem_cons_self c t)
    have hrt : r ∉ t := fun ht => h (List.mem_cons_of_mem c ht)
    rw [List.map_cons, List.sum_cons, ih hrt, dummyVal, if_neg hrc]
    simp

lemma sum_dummyVal_of_nodup {r : String} {cs : List String} (hn : cs.Nodup)
    (hm : r ∈ cs) : (cs.map fun c => dummyVal r c).sum = 1 := by
  induction cs with
  | nil => cases hm
  | cons c t ih =>
    obtain ⟨hct, htn⟩ := List.nodup_cons.mp hn
    rcases List.mem_cons.mp hm with rfl | hmt
    · rw [List.map_cons, List.sum_cons, sum_dummyVal_of_not_mem hct, dummyVal, if_pos rfl]
      simp
    · have hrc : r ≠ c := fun hrc => hct (by rw [← hrc]; exact hmt)
      rw [List.map_cons, List.sum_cons, ih htn hmt, dummyVal, if_neg hrc]
      simp

lemma counties_cons (t : Tract) (ts : List Tract) :
    counties (t :: ts) = t.county :: uniqueAux [t.county] (ts.map Tract.county) := by
  simp [counties, countyCol, uniqueVals, uniqueAux]

/-- C9 counterexample: when `dropna` removes every row of the first-listed
county (here the sole "a"-county row has a null predictor), the included
dummy columns do sum row-wise to the all-ones column down the nonempty
design matrix. -/
theorem included_dummies_all_ones_possible :
    includedSums [Tract.mk false "a", Tract.mk true "b"] =
        List.replicate (designRows [Tract.mk false "a", Tract.mk true "b"]).length 1 ∧
      designRows [Tract.mk false "a", Tract.mk true "b"] ≠ [] := by
  constructor
  · decide
  · decide

/-- C9 (amended): one 0/1 dummy is created per distinct COUNTYFP value, and
on every tract row the full set of dummies sums to 1; exactly the first
dummy is excluded from the design-matrix list; and on every design-matrix
row the included dummies sum to 0 when the row lies in the first-listed
county and to 1 otherwise — so they avoid the all-ones constant column
precisely when the design matrix retains a row of the first-listed
county. -/
theorem county_dummies_characterization (tracts : List Tract) :
    (∀ r ∈ tracts, fullDummyRowSum tracts r.county = 1) ∧
      (tracts ≠ [] → counties tracts = (counties tracts).headI :: countyDummies tracts) ∧
      (∀ r ∈ designRows tracts,
        includedDummyRowSum tracts r.county =
          if r.county = (counties tracts).headI then 0 else 1) := by
  refine ⟨?_, ?_, ?_⟩
  · intro r hr
    apply sum_dummyVal_of_nodup (nodup_uniqueVals _)
    exact (mem_uniqueVals _ _).mpr (List.mem_map_of_mem Tract.county hr)
  · intro hne
    cases tracts with
    | nil => exact absurd rfl hne
    | cons t ts =>
      rw [counties_cons, countyDummies, counties_cons]
      rfl
  · intro r hr
    cases tracts with
    | nil => simp [designRows] at hr
    | cons t ts =>
      have hmem : r ∈ t :: ts := (List.mem_filter.mp hr).1
      have hcs := counties_cons t ts
      have hc0 : t.county ∉ uniqueAux [t.county] (ts.map Tract.county) := fun hmem0 =>
        ((mem_uniqueAux t.county _ _).mp hmem0).2 (List.mem_cons_self _ _)
      have hrest : (uniqueAux [t.county] (ts.map Tract.county)).Nodup :=
        nodup_uniqueAux _ _
      have hdummies : countyDummies (t :: ts) = uniqueAux [t.county] (ts.map Tract.county) := by
        rw [countyDummies, hcs, List.tail_cons]
      have hheadI : (counties (t :: ts)).headI = t.county := by rw [hcs]; rfl
      rw [includedDummyRowSum, hdummies, hheadI]
      by_cases hrc : r.county = t.county
      · rw [if_pos hrc]
        exact sum_dummyVal_of_not_mem (hrc ▸ hc0)
      · rw [if_neg hrc]
        have hmemc : r.county ∈ counties (t :: ts) :=
          (mem_uniqueVals _ _).mpr (List.mem_map_of_mem Tract.county hmem)
        rw [hcs] at hmemc
        rcases List.mem_cons.mp hmemc with h1 | h2
        · exact absurd h1 hrc
        · exact sum_dummyVal_of_nodup hrest h2

/-- Concrete fixed-effects data for the C9 witness: two counties, one
predictor null in the third row. -/
def dummyEx : List Tract := [Tract.mk true "a", Tract.mk true "b", Tract.mk false "a"]

/-- C9 witness: the amended characterization evaluated on `dummyEx`. -/
theorem county_dummies_characterization_witness :
    counties dummyEx = (counties dummyEx).headI :: countyDummies dummyEx ∧
      fullDummyRowSum dummyEx (Tract.mk true "a").county = 1 ∧
      includedDummyRowSum dummyEx (Tract.mk true "a").county =
        if (Tract.mk true "a").county = (counties dummyEx).headI then 0 else 1 :=
  ⟨(county_dummies_characterization dummyEx).2.1 (by decide),
    (county_dummies_characterization dummyEx).1 (Tract.mk true "a") (by decide),
    (county_dummies_characterization dummyEx).2.2 (Tract.mk true "a") (by decide)⟩

/-! ### GPS records: weekday/weekend hourly shares (module04) -/

/-- A GPS record as the cells see it: the weekday (0 = Monday .. 6 = Sunday)
and the hour (0..23) of its datetime index. -/
structure GpsRec where
  weekday : Fin 7
  hour : Fin 24
deriving Repr, DecidableEq

/-- `weekend_mask = (dt.index.weekday==5) | (dt.index.weekday==6)`. -/
def weekendMask (r : GpsRec) : Bool := r.weekday.val = 5 ∨ r.weekday.val = 6

/-- `weekends = dt[weekend_mask]`. -/
def weekends (dt : List GpsRec) : List GpsRec := dt.filter weekendMask

/-- `weekdays = dt[~weekend_mask]`. -/
def weekdays (dt : List GpsRec) : List GpsRec := dt.filter fun r => ! weekendMask r

/-- `x.groupby(x.index.hour).size()`: the group sizes, one per distinct hour
present (pandas sorts the group keys; key order does not affect the sums
verified below). -/
def hourlySizes (l : List GpsRec) : List (Fin 24 × Nat) :=
  (uniqueVals (l.map GpsRec.hour)).map fun h => (h, l.countP fun r => r.hour = h)

/-- `.size() / .size().sum()`: each hour's share of the records. -/
def hourlyShare (l : List GpsRec) : List (Fin 24 × ℚ) :=
  (hourlySizes l).map fun s =>
    (s.1, (s.2 : ℚ) / ((((hourlySizes l).map Prod.snd).sum : ℕ) : ℚ))

lemma countP_hour_mem_cons (l : List GpsRec) (h : Fin 24) (hs : List (Fin 24))
    (hnot : h ∉ hs) :
    (l.countP fun r => r.hour ∈ h :: hs) =
      (l.countP fun r => r.hour = h) + l.countP fun r => r.hour ∈ hs := by
  induction l with
  | nil => rfl
  | cons r t ih =>
    rw [List.countP_cons, List.countP_cons, List.countP_cons, ih]
    by_cases h1 : r.hour = h <;> by_cases h2 : r.hour ∈ hs
    · exact absurd (h1 ▸ h2) hnot
    · simp [h1, h2, hnot, List.mem_cons]
      omega
    · simp [h1, h2, List.mem_cons]
      omega
    · simp [h1, h2, List.mem_cons]

lemma sum_countP_hours (l : List GpsRec) :
    ∀ hs : List (Fin 24), hs.Nodup →
      (hs.map fun h => l.countP fun r => r.hour = h).sum =
        l.countP fun r => r.hour ∈ hs := by
  intro hs
  induction hs with
  | nil =>
    intro _
    simp
  | cons h t ih =>
    intro hn
    obtain ⟨hht, htn⟩ := List.nodup_cons.mp hn
    rw [List.map_cons, List.sum_cons, ih htn, countP_hour_mem_cons l h t hht]

lemma sum_hourlySizes (l : List GpsRec) :
    ((hourlySizes l).map Prod.snd).sum = l.length := by
  rw [hourlySizes, List.map_map]
  have hmap : (Prod.snd ∘ fun h : Fin 24 => (h, l.countP fun r => r.hour = h)) =
      fun h : Fin 24 => l.countP fun r => r.hour = h := rfl
  rw [hmap, sum_countP_hours l _ (nodup_uniqueVals _)]
  apply List.countP_eq_length.mpr
  intro r hr
  simpa [mem_uniqueVals] using List.mem_map_of_mem GpsRec.hour hr

lemma hourlyShare_sum (l : List GpsRec) (hne : l ≠ []) :
    ((hourlyShare l).map Prod.snd).sum = 1 := by
  have hT : ((hourlySizes l).map Prod.snd).sum = l.length := sum_hourlySizes l
  have hlen : ((l.length : ℕ) : ℚ) ≠ 0 :=
    Nat.cast_ne_zero.mpr fun h => hne (List.length_eq_zero.mp h)
  rw [hourlyShare, List.map_map]
  have hmap : (Prod.snd ∘ fun s : Fin 24 × Nat =>
      (s.1, (s.2 : ℚ) / ((((hourlySizes l).map Prod.snd).sum : ℕ) : ℚ))) =
      fun s : Fin 24 × Nat =>
        (s.2 : ℚ) / ((((hourlySizes l).map Prod.snd).sum : ℕ) : ℚ) := rfl
  rw [hmap]
  simp only [div_eq_mul_inv]
  rw [List.sum_map_mul_right]
  have hcast : ((hourlySizes l).map fun s : Fin 24 × Nat => (s.2 : ℚ)).sum =
      ((((hourlySizes l).map Prod.snd).sum : ℕ) : ℚ) := by
    rw [Nat.cast_list_sum, List.map_map]
    rfl
  rw [hcast, hT]
  exact mul_inv_cancel₀ hlen

/-- C10: the weekend mask and its complement partition the GPS records —
the two parts' sizes add up to the total and every record lands in exactly
one of `weekdays`/`weekends` — and each hourly-share series sums to 1
whenever its underlying subset is non-empty. -/
theorem weekend_partition_and_shares (dt : List GpsRec) :
    ((weekdays dt).length + (weekends dt).length = dt.length) ∧
      (∀ r ∈ dt, (weekendMask r = true ∧ r ∈ weekends dt ∧ r ∉ weekdays dt) ∨
        (weekendMask r = false ∧ r ∈ weekdays dt ∧ r ∉ weekends dt)) ∧
      (weekdays dt ≠ [] → ((hourlyShare (weekdays dt)).map Prod.snd).sum = 1) ∧
      (weekends dt ≠ [] → ((hourlyShare (weekends dt)).map Prod.snd).sum = 1) := by
  refine ⟨?_, ?_, hourlyShare_sum _, hourlyShare_sum _⟩
  · induction dt with
    | nil => rfl
    | cons r t ih =>
      simp only [weekdays, weekends] at ih ⊢
      by_cases h : weekendMask r = true <;> simp [List.filter_cons, h] <;> omega
  · intro r hr
    by_cases h : weekendMask r = true
    · left
      refine ⟨h, List.mem_filter.mpr ⟨hr, h⟩, fun hmem => ?_⟩
      have hker := (List.mem_filter.mp hmem).2
      simp [h] at hker
    · right
      have hfalse : weekendMask r = false := by simpa using h
      refine ⟨hfalse, List.mem_filter.mpr ⟨hr, by simp [hfalse]⟩, fun hmem => ?_⟩
      exact h (List.mem_filter.mp hmem).2

/-- Concrete GPS data for the C10 witness: one Wednesday record and one
Sunday record. -/
def gpsEx : List GpsRec := [GpsRec.mk 2 8, GpsRec.mk 6 23]

/-- C10 witness: the partition and both share sums on `gpsEx`. -/
theorem weekend_partition_and_shares_witness :
    ((hourlyShare (weekdays gpsEx)).map Prod.snd).sum = 1 ∧
      ((hourlyShare (weekends gpsEx)).map Prod.snd).sum = 1 ∧
      ((weekendMask (GpsRec.mk 6 23) = true ∧ GpsRec.mk 6 23 ∈ weekends gpsEx ∧
          GpsRec.mk 6 23 ∉ weekdays gpsEx) ∨
        (weekendMask (GpsRec.mk 6 23) = false ∧ GpsRec.mk 6 23 ∈ weekdays gpsEx ∧
          GpsRec.mk 6 23 ∉ weekends gpsEx)) :=
  ⟨(weekend_partition_and_shares gpsEx).2.2.1 (by decide),
    (weekend_partition_and_shares gpsEx).2.2.2 (by decide),
    (weekend_partition_and_shares gpsEx).2.1 (GpsRec.mk 6 23) (by decide)⟩

end Asa
